import Mathlib

/-!
Verification of the workout-dashboard data pipeline implemented in
`src/app/components/SquashAnalysis.tsx`.

The pipeline under verification (the `fetchData` callback and the helpers it
uses) is shallowly embedded below:

* CSV lexing is performed by the external Papa Parse collaborator (with
  `header: true`, `dynamicTyping: true`, `skipEmptyLines: true`); the embedding
  therefore starts from `parseResult.data`, a list of raw rows.  With header
  mode and dynamic typing, a `"H:MM"` duration cell (it contains a colon) stays
  a string, numeric cells become numbers, and an empty cell becomes `null`
  (modelled as `Option.none`).
* JavaScript numbers are modelled as `Int` where the code only ever produces
  integers, with `Option Int` where `NaN` (from a failed `parseInt`) or `null`
  can flow in.  `none` stands for `NaN`/`null` as noted at each definition.
* `Array.prototype.sort` is stable (ES2019) and the comparator used by the code
  induces a total preorder on records with a valid date label, so the sorted
  result is the unique stable-sorted permutation; we embed it with the stable
  `List.insertionSort`.  For records whose label does not re-parse the
  comparator returns `NaN` and the engine's order is unspecified; the model
  fixes such records to compare as least elements (see `dateLe`).
-/

namespace SquashAnalysis

/-! ### JavaScript string and number primitives used by the pipeline -/

/-- Embeds `String.prototype.split` with a one-character separator, at the
level of character lists.  Splitting never yields an empty list of groups:
splitting the empty string yields `[[]]`, exactly as `"".split(':')` yields
`[""]` in JavaScript. -/
def splitChar (c : Char) : List Char → List (List Char)
  | [] => [[]]
  | x :: xs =>
    if x = c then [] :: splitChar c xs
    else
      match splitChar c xs with
      | [] => [[x]]
      | g :: gs => (x :: g) :: gs

/-- Embeds `String.prototype.split` with a one-character separator. -/
def jsSplit (s : String) (c : Char) : List String :=
  (splitChar c s.data).map (fun l => String.mk l)

/-- Decimal value of a list of digit characters, most significant first. -/
def digitsVal (l : List Char) : Nat :=
  l.foldl (fun a c => a * 10 + (c.toNat - 48)) 0

/-- Longest leading run of decimal digits, as a number; `none` when there is
no leading digit (in JavaScript, `parseInt` returns `NaN` then). -/
def leadingNat (l : List Char) : Option Nat :=
  let ds := l.takeWhile (fun ch => ch.isDigit)
  if ds.isEmpty then none else some (digitsVal ds)

/-- Embeds `parseInt` (radix 10 behaviour, over the characters of the
argument): skip leading whitespace, read an optional sign, then the longest
run of decimal digits; `none` is the JavaScript `NaN` result.  The `0x` hex
prefix detection of `parseInt` is not modelled; no duration cell carries it. -/
def jsParseIntChars (l : List Char) : Option Int :=
  match l.dropWhile (fun ch => ch.isWhitespace) with
  | [] => none
  | c :: rest =>
    if c = '-' then (leadingNat rest).map (fun n => -(n : Int))
    else if c = '+' then (leadingNat rest).map (fun n => (n : Int))
    else (leadingNat (c :: rest)).map (fun n => (n : Int))

/-- Embeds `parseInt` on a string argument. -/
def jsParseInt (s : String) : Option Int :=
  jsParseIntChars s.data

/-- Embeds lines 73-74 of the source:
`const durationParts = row['Duration'].split(':');`
`const minutes = parseInt(durationParts[0]) * 60 + parseInt(durationParts[1]);`
`none` is `NaN`: either `parseInt` failed on a part, or there is no second
part, in which case `durationParts[1]` is `undefined` and
`parseInt(undefined)` is `NaN`; `NaN` is absorbing for `*` and `+`.
Parts beyond the second are ignored, as in the source. -/
def parseDurationMinutes (d : String) : Option Int :=
  match jsSplit d ':' with
  | p0 :: p1 :: _ =>
    match jsParseInt p0, jsParseInt p1 with
    | some h, some m => some (h * 60 + m)
    | _, _ => none
  | _ => none

/-! ### Calendar dates, `new Date(string)` and `toLocaleDateString` -/

/-- A calendar date, the only part of a JavaScript `Date` this pipeline
observes (`toLocaleDateString` with month and day, and `getTime` used only
for comparisons). -/
structure YMD where
  year : Nat
  month : Nat
  day : Nat
deriving DecidableEq, Repr

/-- Gregorian leap-year rule, as used by the `Date` parser. -/
def isLeap (y : Nat) : Bool :=
  (y % 4 == 0 && y % 100 != 0) || y % 400 == 0

/-- Number of days of month `m` (1-based) in year `y`. -/
def daysInMonth (y m : Nat) : Nat :=
  if m = 2 then (if isLeap y then 29 else 28)
  else if m = 4 ∨ m = 6 ∨ m = 9 ∨ m = 11 then 30
  else 31

/-- Validity of a (year, month, day) triple; invalid triples make
`new Date(string)` produce an Invalid Date. -/
def validYMD (y m d : Nat) : Bool :=
  1 ≤ m && m ≤ 12 && 1 ≤ d && d ≤ daysInMonth y m

/-- The twelve `en-US` short month names produced by
`toLocaleDateString('en-US', { month: 'short' })` and accepted back by the
`Date` string parser. -/
def monthNames : List String :=
  ["Jan", "Feb", "Mar", "Apr", "May", "Jun",
   "Jul", "Aug", "Sep", "Oct", "Nov", "Dec"]

/-- Short name of month `m` (1-based). -/
def monthShort (m : Nat) : String :=
  monthNames.getD (m - 1) ""

/-- ISO `YYYY-MM-DD` date strings, the shape of the `Start` column values fed
to `new Date(row['Start'])`.  Time-of-day suffixes are not modelled: only the
calendar date flows downstream. -/
def parseISO (l : List Char) : Option YMD :=
  match l with
  | [y1, y2, y3, y4, '-', m1, m2, '-', d1, d2] =>
    if ([y1, y2, y3, y4, m1, m2, d1, d2].all (fun ch => ch.isDigit)) then
      let y := digitsVal [y1, y2, y3, y4]
      let m := digitsVal [m1, m2]
      let d := digitsVal [d1, d2]
      if validYMD y m d then some ⟨y, m, d⟩ else none
    else none
  | _ => none

/-- Month-name date strings of the shape `Mon D`, the shape of the display
labels this pipeline re-parses in its sort comparator.  As in the JavaScript
`Date` parser, a string with no year is assigned the default year 2001. -/
def parseMonthDay (l : List Char) : Option YMD :=
  match splitChar ' ' l with
  | [mon, day] =>
    match monthNames.findIdx? (fun n => n == String.mk mon) with
    | some i =>
      if !day.isEmpty && day.all (fun ch => ch.isDigit) then
        let d := digitsVal day
        if validYMD 2001 (i + 1) d then some ⟨2001, i + 1, d⟩ else none
      else none
    | none => none
  | _ => none

/-- Modelled subset of the `new Date(string)` parser covering the two shapes
of date string this pipeline feeds it: ISO `YYYY-MM-DD` start values and the
`en-US` short labels `Mon D` that the sort comparator re-parses.  `none` is
the Invalid Date result.  Timezone effects are not modelled (dates are taken
as calendar dates). -/
def jsDateParse (s : String) : Option YMD :=
  (parseISO s.data).orElse (fun _ => parseMonthDay s.data)

/-- Order-isomorphic stand-in for `Date.prototype.getTime` (epoch
milliseconds): strictly monotone in the (year, month, day) lexicographic
order, which is all the sort comparator observes (it only uses the sign of a
difference of two `getTime` values). -/
def dateKey (d : YMD) : Nat :=
  d.year * 372 + (d.month - 1) * 31 + (d.day - 1)

/-- Embeds `date.toLocaleDateString('en-US', { month: 'short', day: 'numeric' })`,
applied to a possibly invalid date; an Invalid Date renders as the string
`Invalid Date`. -/
def toLocaleDateStringUS : Option YMD → String
  | some d => monthShort d.month ++ " " ++ toString d.day
  | none => "Invalid Date"

/-! ### Raw rows, processed records and the pipeline -/

/-- One element of `parseResult.data`: a CSV row read with `header: true` and
`dynamicTyping: true`.  The duration cell of a workout export is a `"H:MM"`
string (a colon prevents numeric conversion); the three numeric cells are
numbers, or `null` (`none`) for an empty cell. -/
structure RawRow where
  workoutType : String
  start : String
  duration : String
  calories : Option Int
  avgHeartRate : Option Int
  maxHeartRate : Option Int
deriving DecidableEq, Repr

/-- The record built by the `.map` stage (lines 72-84 of the source).
`durationMinutes` is `none` when the duration computation produced `NaN`. -/
structure Record where
  date : String
  duration : String
  durationMinutes : Option Int
  calories : Option Int
  avgHeartRate : Option Int
  maxHeartRate : Option Int
  workoutType : String
deriving DecidableEq, Repr

/-- The `.filter` predicate of line 71:
`row['Workout Type'] === 'Squash' || row['Workout Type'] === 'Hiking'`. -/
def categoryOk (row : RawRow) : Bool :=
  row.workoutType == "Squash" || row.workoutType == "Hiking"

/-- The `.map` body of lines 72-84, building one record from one raw row. -/
def processRow (row : RawRow) : Record :=
  { date := toLocaleDateStringUS (jsDateParse row.start)
    duration := row.duration
    durationMinutes := parseDurationMinutes row.duration
    calories := row.calories
    avgHeartRate := row.avgHeartRate
    maxHeartRate := row.maxHeartRate
    workoutType := row.workoutType }

/-- Sort key of a record: `new Date(record.date).getTime()`, where
`record.date` is the already formatted display label.  `none` is the `NaN`
key of a label that does not re-parse. -/
def sortKey (r : Record) : Option Nat :=
  (jsDateParse r.date).map dateKey

/-- The comparator of line 85,
`(a, b) => new Date(a.date).getTime() - new Date(b.date).getTime()`, as the
total preorder it induces on records with valid labels.  When a key is `NaN`
the comparator's answer is `NaN` and the engine's resulting order is
unspecified; the model fixes `NaN`-keyed records to compare as least
elements, a choice no verified statement depends on. -/
def dateLe (a b : Record) : Bool :=
  match sortKey a, sortKey b with
  | some x, some y => x ≤ y
  | none, _ => true
  | some _, none => false

/-- Lines 70-85 of the source: filter the raw rows by category, map them to
records, and stable-sort by the re-parsed date label. -/
def processedData (rows : List RawRow) : List Record :=
  List.insertionSort (fun a b => dateLe a b = true)
    ((rows.filter categoryOk).map processRow)

/-! ### Aggregation -/

/-- Lines 8-12 of the source:
`const hours = Math.floor(minutes / 60); const mins = minutes % 60;`
returning `` `${hours}h ${mins}m` ``.  `Math.floor` of an exact quotient of
integers is `Int.fdiv`, and the JavaScript `%` is the truncating `Int.tmod`. -/
def formatDuration (minutes : Int) : String :=
  toString (Int.fdiv minutes 60) ++ "h " ++ toString (Int.tmod minutes 60) ++ "m"

/-- `formatDuration` applied to a possibly-`NaN` total (`Math.floor(NaN)` and
`NaN % 60` are `NaN`, which renders as the string `NaN`). -/
def formatDurationJS : Option Int → String
  | some m => formatDuration m
  | none => "NaNh NaNm"

/-- JavaScript `+` on numbers that may be `NaN`: `NaN` is absorbing. -/
def jsAdd : Option Int → Option Int → Option Int
  | some a, some b => some (a + b)
  | _, _ => none

/-- `Math.round(s / n)` for an integer sum `s` and a count `n`: rounding half
toward positive infinity, `Math.round(s / n) = ⌊s / n + 1 / 2⌋ = ⌊(2 * s + n) / (2 * n)⌋`.
The code only divides by a positive length (`n = 0` never reaches this). -/
def jsRoundDiv (s : Int) (n : Nat) : Int :=
  Int.fdiv (2 * s + n) (2 * n)

/-- `Math.max(v1, ..., vn)` on a list of arguments.  `Math.max()` of an empty
argument list is negative infinity; the code guards every call with
`length > 0`, so the empty case is unreachable and modelled as 0. -/
def jsMax : List Int → Int
  | [] => 0
  | x :: xs => xs.foldl max x

/-- The per-category summary state (lines 17-28 of the source).
`totalDuration` is the display string produced by `formatDuration`. -/
structure CategoryStats where
  totalSessions : Nat
  totalDuration : String
  avgCalories : Int
  maxHeartRate : Int
deriving DecidableEq, Repr

/-- The `useState` initial value for both categories: the state kept when a
category has no records (its `setStats` call is guarded by `length > 0`). -/
def initialStats : CategoryStats :=
  { totalSessions := 0
    totalDuration := "0h 0m"
    avgCalories := 0
    maxHeartRate := 0 }

/-- Lines 90-101 (and identically 103-114) of the source: the stats computed
for one category's records, or the initial state when there are none.
`acc + row.calories` with a `null` cell adds 0 (`null` coerces to 0 in `+`),
while `acc + row.durationMinutes` with a `NaN` duration is `NaN`;
`row.maxHeartRate || 0` is the explicit zero fallback of line 96. -/
def computeStats (l : List Record) : CategoryStats :=
  if 0 < l.length then
    { totalSessions := l.length
      totalDuration :=
        formatDurationJS (l.foldl (fun acc r => jsAdd acc r.durationMinutes) (some 0))
      avgCalories :=
        jsRoundDiv (l.foldl (fun acc r => acc + r.calories.getD 0) 0) l.length
      maxHeartRate := jsMax (l.map (fun r => r.maxHeartRate.getD 0)) }
  else initialStats

/-- Line 89: `processedData.filter(row => row.workoutType === 'Squash')`. -/
def squashData (rows : List RawRow) : List Record :=
  (processedData rows).filter (fun r => r.workoutType == "Squash")

/-- Line 103: `processedData.filter(row => row.workoutType === 'Hiking')`. -/
def hikingData (rows : List RawRow) : List Record :=
  (processedData rows).filter (fun r => r.workoutType == "Hiking")

/-- The squash stats published for a batch. -/
def squashStats (rows : List RawRow) : CategoryStats :=
  computeStats (squashData rows)

/-- The hiking stats published for a batch. -/
def hikingStats (rows : List RawRow) : CategoryStats :=
  computeStats (hikingData rows)

/-- Following the spec's words for the average-calories contract, to be
compared with the implementation: round-to-nearest-integer of the sum of
`calories` over records where present, divided by the count of records where
`calories` is present. -/
def specAvgCalories (l : List Record) : Int :=
  jsRoundDiv ((l.filterMap (fun r => r.calories)).sum)
    (l.countP (fun r => r.calories.isSome))

/-! ### Helper lemmas about the JavaScript primitives -/

theorem digit_not_ws {c : Char} (h : c.isDigit = true) : c.isWhitespace = false := by
  have h1 : c ≠ ' ' := by intro e; subst e; exact absurd h (by decide)
  have h2 : c ≠ '\t' := by intro e; subst e; exact absurd h (by decide)
  have h3 : c ≠ '\x0d' := by intro e; subst e; exact absurd h (by decide)
  have h4 : c ≠ '\n' := by intro e; subst e; exact absurd h (by decide)
  simp [Char.isWhitespace, h1, h2, h3, h4]

theorem digit_ne_minus {c : Char} (h : c.isDigit = true) : c ≠ '-' := by
  intro e; subst e; exact absurd h (by decide)

theorem digit_ne_plus {c : Char} (h : c.isDigit = true) : c ≠ '+' := by
  intro e; subst e; exact absurd h (by decide)

theorem leadingNat_digits (l : List Char) (h0 : l ≠ [])
    (h : ∀ c ∈ l, c.isDigit = true) : leadingNat l = some (digitsVal l) := by
  unfold leadingNat
  rw [List.takeWhile_eq_self_iff.mpr h]
  cases l with
  | nil => exact absurd rfl h0
  | cons c cs => rfl

theorem jsParseIntChars_digits (l : List Char) (h0 : l ≠ [])
    (h : ∀ c ∈ l, c.isDigit = true) :
    jsParseIntChars l = some ((digitsVal l : Int)) := by
  cases l with
  | nil => exact absurd rfl h0
  | cons c cs =>
    have hc : c.isDigit = true := h c (List.mem_cons_self c cs)
    unfold jsParseIntChars
    rw [List.dropWhile_cons, digit_not_ws hc]
    simp only [Bool.false_eq_true, if_false]
    rw [if_neg (digit_ne_minus hc), if_neg (digit_ne_plus hc),
      leadingNat_digits (c :: cs) (by simp) h]
    rfl

theorem splitChar_not_mem {c : Char} : ∀ {l : List Char}, c ∉ l → splitChar c l = [l]
  | [], _ => rfl
  | x :: xs, h => by
    have h1 : ¬(x = c) := fun e => h (by simp [e])
    have h2 : c ∉ xs := fun m => h (List.mem_cons_of_mem x m)
    simp [splitChar, h1, splitChar_not_mem h2]

theorem splitChar_append {c : Char} : ∀ {p : List Char}, c ∉ p → ∀ (rest : List Char),
    splitChar c (p ++ c :: rest) = p :: splitChar c rest
  | [], _, rest => by simp [splitChar]
  | x :: xs, h, rest => by
    have h1 : ¬(x = c) := fun e => h (by simp [e])
    have h2 : c ∉ xs := fun m => h (List.mem_cons_of_mem x m)
    have ih := splitChar_append h2 rest
    simp [splitChar, h1, ih]

theorem digits_not_colon {l : List Char} (h : ∀ c ∈ l, c.isDigit = true) :
    (':' : Char) ∉ l :=
  fun m => absurd (h _ m) (by decide)

theorem parseDurationMinutes_two_parts (hs ms : List Char) (h1 : hs ≠ []) (h2 : ms ≠ [])
    (h3 : ∀ c ∈ hs, c.isDigit = true) (h4 : ∀ c ∈ ms, c.isDigit = true) :
    parseDurationMinutes (String.mk (hs ++ ':' :: ms)) =
      some ((digitsVal hs : Int) * 60 + (digitsVal ms : Int)) := by
  have hp0 : jsParseInt (String.mk hs) = some ((digitsVal hs : Int)) :=
    jsParseIntChars_digits hs h1 h3
  have hp1 : jsParseInt (String.mk ms) = some ((digitsVal ms : Int)) :=
    jsParseIntChars_digits ms h2 h4
  unfold parseDurationMinutes jsSplit
  rw [show (String.mk (hs ++ ':' :: ms)).data = hs ++ ':' :: ms from rfl,
    splitChar_append (digits_not_colon h3) ms, splitChar_not_mem (digits_not_colon h4)]
  simp only [List.map_cons, List.map_nil]
  rw [hp0, hp1]

theorem parseDurationMinutes_extra_parts (hs ms tl : List Char) (h1 : hs ≠ []) (h2 : ms ≠ [])
    (h3 : ∀ c ∈ hs, c.isDigit = true) (h4 : ∀ c ∈ ms, c.isDigit = true) :
    parseDurationMinutes (String.mk (hs ++ ':' :: (ms ++ ':' :: tl))) =
      some ((digitsVal hs : Int) * 60 + (digitsVal ms : Int)) := by
  have hp0 : jsParseInt (String.mk hs) = some ((digitsVal hs : Int)) :=
    jsParseIntChars_digits hs h1 h3
  have hp1 : jsParseInt (String.mk ms) = some ((digitsVal ms : Int)) :=
    jsParseIntChars_digits ms h2 h4
  unfold parseDurationMinutes jsSplit
  rw [show (String.mk (hs ++ ':' :: (ms ++ ':' :: tl))).data = hs ++ ':' :: (ms ++ ':' :: tl)
      from rfl,
    splitChar_append (digits_not_colon h3) (ms ++ ':' :: tl),
    splitChar_append (digits_not_colon h4) tl]
  simp only [List.map_cons]
  rw [hp0, hp1]

theorem formatDuration_hm (h m : Nat) (hm : m < 60) :
    formatDuration ((h : Int) * 60 + m) = toString h ++ "h " ++ toString m ++ "m" := by
  have e1 : ((h : Int) * 60 + m) = ((h * 60 + m : Nat) : Int) := by push_cast; ring
  have e2 : Int.fdiv ((h * 60 + m : Nat) : Int) 60 = ((h : Nat) : Int) := by
    rw [show ((60 : Int)) = ((60 : Nat) : Int) from rfl, ← Int.ofNat_fdiv]
    have : (h * 60 + m) / 60 = h := by omega
    rw [this]
  have e3 : Int.tmod ((h * 60 + m : Nat) : Int) 60 = ((m : Nat) : Int) := by
    have : Int.tmod ((h * 60 + m : Nat) : Int) ((60 : Nat) : Int)
        = (((h * 60 + m) % 60 : Nat) : Int) := rfl
    rw [show ((60 : Int)) = ((60 : Nat) : Int) from rfl, this]
    have : (h * 60 + m) % 60 = m := by omega
    rw [this]
  unfold formatDuration
  rw [e1, e2, e3]
  rfl

/-! ### Helper lemmas about aggregation -/

theorem jsMax_spec (x : Int) (xs : List Int) :
    jsMax (x :: xs) ∈ x :: xs ∧ ∀ y ∈ x :: xs, y ≤ jsMax (x :: xs) := by
  induction xs generalizing x with
  | nil => simp [jsMax]
  | cons z t ih =>
    have e : jsMax (x :: z :: t) = jsMax (max x z :: t) := rfl
    obtain ⟨hmem, hle⟩ := ih (max x z)
    constructor
    · rw [e]
      rcases List.mem_cons.mp hmem with h | h
      · rcases max_choice x z with hx | hz
        · rw [h, hx]; exact List.mem_cons_self x (z :: t)
        · rw [h, hz]; exact List.mem_cons_of_mem x (List.mem_cons_self z t)
      · exact List.mem_cons_of_mem x (List.mem_cons_of_mem z h)
    · intro y hy
      rw [e]
      have hmz : max x z ≤ jsMax (max x z :: t) := hle _ (List.mem_cons_self _ t)
      rcases List.mem_cons.mp hy with h | h
      · rw [h]; exact le_trans (le_max_left x z) hmz
      · rcases List.mem_cons.mp h with h' | h'
        · rw [h']; exact le_trans (le_max_right x z) hmz
        · exact hle y (List.mem_cons_of_mem _ h')

theorem jsMax_perm {a b : List Int} (h : a.Perm b) : jsMax a = jsMax b := by
  cases a with
  | nil =>
    have hb : b = [] := h.symm.eq_nil
    rw [hb]
  | cons x xs =>
    cases b with
    | nil => exact absurd h.eq_nil (by simp)
    | cons y ys =>
      obtain ⟨m1, l1⟩ := jsMax_spec x xs
      obtain ⟨m2, l2⟩ := jsMax_spec y ys
      exact le_antisymm (l2 _ (h.mem_iff.mp m1)) (l1 _ (h.mem_iff.mpr m2))

theorem calories_foldl (l : List Record) : ∀ (a : Int),
    l.foldl (fun acc r => acc + r.calories.getD 0) a =
      a + (l.filterMap (fun r => r.calories)).sum := by
  induction l with
  | nil => intro a; simp
  | cons r t ih =>
    intro a
    cases hc : r.calories with
    | none => simp [List.foldl_cons, hc, List.filterMap_cons, ih]
    | some v =>
      simp only [List.foldl_cons, hc, Option.getD_some, List.filterMap_cons, ih,
        List.sum_cons]
      omega

theorem duration_foldl_perm {l l' : List Record} (h : l.Perm l') :
    l.foldl (fun acc r => jsAdd acc r.durationMinutes) (some 0) =
      l'.foldl (fun acc r => jsAdd acc r.durationMinutes) (some 0) := by
  haveI : RightCommutative (fun (acc : Option Int) (r : Record) =>
      jsAdd acc r.durationMinutes) := by
    constructor
    intro b a1 a2
    cases b with
    | none => rfl
    | some vb =>
      cases h1 : a1.durationMinutes <;> cases h2 : a2.durationMinutes <;>
        simp [jsAdd, Int.add_right_comm]
  exact h.foldl_eq _

theorem calories_foldl_perm {l l' : List Record} (h : l.Perm l') :
    l.foldl (fun acc r => acc + r.calories.getD 0) 0 =
      l'.foldl (fun acc r => acc + r.calories.getD 0) 0 := by
  haveI : RightCommutative (fun (acc : Int) (r : Record) => acc + r.calories.getD 0) :=
    ⟨fun b a1 a2 => by omega⟩
  exact h.foldl_eq _

theorem computeStats_totalSessions (l : List Record) :
    (computeStats l).totalSessions = l.length := by
  by_cases hl : 0 < l.length
  · simp [computeStats, hl]
  · simp [computeStats, hl, initialStats]
    omega

theorem processedData_category {rows : List RawRow} {r : Record}
    (h : r ∈ processedData rows) :
    r.workoutType = "Squash" ∨ r.workoutType = "Hiking" := by
  unfold processedData at h
  rw [(List.perm_insertionSort _ _).mem_iff] at h
  obtain ⟨row, hrow, hmap⟩ := List.mem_map.mp h
  obtain ⟨_, hok⟩ := List.mem_filter.mp hrow
  have heq : r.workoutType = row.workoutType := by rw [← hmap]; rfl
  unfold categoryOk at hok
  simp only [Bool.or_eq_true, beq_iff_eq] at hok
  rw [heq]
  exact hok

theorem filter_partition (p : List Record)
    (h : ∀ r ∈ p, r.workoutType = "Squash" ∨ r.workoutType = "Hiking") :
    (p.filter (fun r => r.workoutType == "Squash")).length +
      (p.filter (fun r => r.workoutType == "Hiking")).length = p.length := by
  induction p with
  | nil => rfl
  | cons a t ih =>
    have ht := ih (fun r hr => h r (List.mem_cons_of_mem a hr))
    rcases h a (List.mem_cons_self a t) with h1 | h1
    · rw [List.filter_cons, List.filter_cons, h1, if_pos (by decide), if_neg (by decide)]
      simp only [List.length_cons]
      omega
    · rw [List.filter_cons, List.filter_cons, h1, if_neg (by decide), if_pos (by decide)]
      simp only [List.length_cons]
      omega

/-! ### Example data used by counterexamples and witnesses -/

/-- Two squash records, one with calories 300 and one with calories absent
(an empty energy cell). -/
def c1Recs : List Record :=
  [{ date := "Mar 1", duration := "1:00", durationMinutes := some 60,
     calories := some 300, avgHeartRate := some 120, maxHeartRate := some 150,
     workoutType := "Squash" },
   { date := "Mar 2", duration := "0:50", durationMinutes := some 50,
     calories := none, avgHeartRate := none, maxHeartRate := some 140,
     workoutType := "Squash" }]

/-- Three squash rows, the middle one with an unparseable duration cell. -/
def c2Rows : List RawRow :=
  [{ workoutType := "Squash", start := "2024-03-01", duration := "1:00",
     calories := some 300, avgHeartRate := some 120, maxHeartRate := some 150 },
   { workoutType := "Squash", start := "2024-03-02", duration := "oops",
     calories := some 250, avgHeartRate := some 118, maxHeartRate := some 148 },
   { workoutType := "Squash", start := "2024-03-03", duration := "0:45",
     calories := some 200, avgHeartRate := some 110, maxHeartRate := some 160 }]

/-- Two squash rows dated Dec 31 2023 and Jan 1 2024, already in ascending
calendar order. -/
def c3Rows : List RawRow :=
  [{ workoutType := "Squash", start := "2023-12-31", duration := "1:00",
     calories := some 300, avgHeartRate := some 120, maxHeartRate := some 150 },
   { workoutType := "Squash", start := "2024-01-01", duration := "0:45",
     calories := some 200, avgHeartRate := some 110, maxHeartRate := some 160 }]

/-- Two hiking records, one with max heart rate absent and one with 171. -/
def c6Recs : List Record :=
  [{ date := "Mar 1", duration := "1:00", durationMinutes := some 60,
     calories := some 300, avgHeartRate := none, maxHeartRate := none,
     workoutType := "Hiking" },
   { date := "Mar 2", duration := "0:30", durationMinutes := some 30,
     calories := none, avgHeartRate := none, maxHeartRate := some 171,
     workoutType := "Hiking" }]

/-- One squash row. -/
def c7Row : RawRow :=
  { workoutType := "Squash", start := "2024-03-05", duration := "1:10",
    calories := some 500, avgHeartRate := some 132, maxHeartRate := some 165 }

/-- A squash row next to a row with the unrecognized category `Running`. -/
def c7Rows : List RawRow :=
  [c7Row,
   { workoutType := "Running", start := "2024-03-06", duration := "0:40",
     calories := some 350, avgHeartRate := some 140, maxHeartRate := some 175 }]

/-- A squash record used in the permutation witness. -/
def c8RecA : Record :=
  { date := "Mar 1", duration := "1:00", durationMinutes := some 60,
    calories := some 300, avgHeartRate := some 100, maxHeartRate := some 150,
    workoutType := "Squash" }

/-- A second squash record, with calories absent. -/
def c8RecB : Record :=
  { date := "Mar 2", duration := "0:45", durationMinutes := some 45,
    calories := none, avgHeartRate := none, maxHeartRate := some 160,
    workoutType := "Squash" }

/-- A hiking row, a `Running` row and a squash row. -/
def c10Rows : List RawRow :=
  [{ workoutType := "Hiking", start := "2024-04-02", duration := "2:05",
     calories := some 800, avgHeartRate := some 110, maxHeartRate := some 140 },
   { workoutType := "Running", start := "2024-04-03", duration := "0:30",
     calories := some 250, avgHeartRate := some 150, maxHeartRate := some 180 },
   { workoutType := "Squash", start := "2024-04-04", duration := "1:00",
     calories := some 400, avgHeartRate := some 125, maxHeartRate := some 166 }]

/-! ### Claims -/

/-- C1: counterexample.  The claim says avgCalories divides by the count of
records where calories is present.  On the two-record batch `c1Recs`
(calories 300 and absent) the implementation reports
`Math.round(300 / 2) = 150` — it divides by the count of all records — while
the claim's round(sum over present / count of present) is 300. -/
theorem c1_avgCalories_denominator_counterexample :
    (computeStats c1Recs).avgCalories = 150 ∧ specAvgCalories c1Recs = 300 ∧
      (computeStats c1Recs).avgCalories ≠ specAvgCalories c1Recs := by decide

/-- C1 (amended): for every non-empty sequence of records of one category,
avgCalories equals the round-to-nearest-integer of the sum of calories over
the records where calories is present, divided by the count of ALL records of
the category; records with calories absent contribute 0 to the numerator,
still count toward the denominator, and still count toward sessionCount. -/
theorem c1_avgCalories_divide_by_all (l : List Record) (h : l ≠ []) :
    (computeStats l).avgCalories =
      jsRoundDiv ((l.filterMap (fun r => r.calories)).sum) l.length ∧
    (computeStats l).totalSessions = l.length := by
  have hlen : 0 < l.length := List.length_pos.mpr h
  constructor
  · have e : (computeStats l).avgCalories =
        jsRoundDiv (l.foldl (fun acc r => acc + r.calories.getD 0) 0) l.length := by
      unfold computeStats
      rw [if_pos hlen]
    rw [e, calories_foldl l 0, zero_add]
  · exact computeStats_totalSessions l

/-- C1 (amended) witness at the concrete batch `c1Recs`. -/
theorem c1_avgCalories_divide_by_all_witness :
    c1Recs ≠ [] ∧
      ((computeStats c1Recs).avgCalories =
          jsRoundDiv ((c1Recs.filterMap (fun r => r.calories)).sum) c1Recs.length ∧
        (computeStats c1Recs).totalSessions = c1Recs.length) :=
  ⟨by decide, c1_avgCalories_divide_by_all c1Recs (by decide)⟩

/-- C2: counterexample.  The claim says a row with an unparseable duration is
excluded from the output while the rest of the batch is processed.  On the
three-row batch `c2Rows`, whose middle row has duration `oops`, the output
still has all three records: the offending row is kept, with `NaN`
durationMinutes, rather than excluded. -/
theorem c2_malformed_row_kept_counterexample :
    (processedData c2Rows).length = 3 ∧
      (∃ r ∈ processedData c2Rows, r.durationMinutes = none ∧ r.duration = "oops") := by
  decide

/-- C2 (amended): a single row's parse error never aborts the batch, but no
row is excluded for a malformed duration or date either: only the category
filter excludes rows.  Every category-matching row of any batch appears in
the output (one with an unparseable duration carries `NaN` durationMinutes;
one with an unparseable date carries an `Invalid Date` label), and the output
length is exactly the number of category-matching rows. -/
theorem c2_no_row_level_exclusion (rows : List RawRow) :
    (processedData rows).length = (rows.filter categoryOk).length ∧
    ∀ row ∈ rows, categoryOk row = true → processRow row ∈ processedData rows := by
  constructor
  · unfold processedData
    rw [List.length_insertionSort, List.length_map]
  · intro row hr hok
    unfold processedData
    rw [(List.perm_insertionSort _ _).mem_iff]
    exact List.mem_map_of_mem processRow (List.mem_filter.mpr ⟨hr, hok⟩)

/-- C2 (amended) witness at the concrete batch `c2Rows`. -/
theorem c2_no_row_level_exclusion_witness :
    (processedData c2Rows).length = (c2Rows.filter categoryOk).length ∧
      ∀ row ∈ c2Rows, categoryOk row = true → processRow row ∈ processedData c2Rows :=
  c2_no_row_level_exclusion c2Rows

/-- C3: the output is not sorted by the record's calendar date; the code is
wrong.  The sort comparator re-parses the display label, which carries only a
month and a day, so every record is compared in the default year 2001 and the
year of the real date is lost.  For the batch `c3Rows`, whose rows are dated
Dec 31 2023 and Jan 1 2024 — already in ascending calendar order — the
pipeline emits the Jan 1 2024 record first.  This theorem evaluates the code
at that failing input. -/
theorem c3_sort_drops_year_bug :
    (c3Rows.map (fun row => jsDateParse row.start) =
      [some ⟨2023, 12, 31⟩, some ⟨2024, 1, 1⟩]) ∧
    (processedData c3Rows).map (fun r => r.date) = ["Jan 1", "Dec 31"] := by decide

/-- C4: for every valid duration string built of a digit hour part and a
digit minute part with value below 60, the parsed durationMinutes is
hours * 60 + minutes, and formatting round-trips: `formatDuration` renders
exactly the hour value, `h`, a space, the minute value, and `m`. -/
theorem c4_duration_parse_format_roundtrip (hs ms : List Char)
    (h1 : hs ≠ []) (h2 : ms ≠ [])
    (h3 : ∀ c ∈ hs, c.isDigit = true) (h4 : ∀ c ∈ ms, c.isDigit = true)
    (h5 : digitsVal ms < 60) :
    parseDurationMinutes (String.mk (hs ++ ':' :: ms)) =
      some ((digitsVal hs : Int) * 60 + (digitsVal ms : Int)) ∧
    formatDuration ((digitsVal hs : Int) * 60 + (digitsVal ms : Int)) =
      toString (digitsVal hs) ++ "h " ++ toString (digitsVal ms) ++ "m" :=
  ⟨parseDurationMinutes_two_parts hs ms h1 h2 h3 h4,
    formatDuration_hm (digitsVal hs) (digitsVal ms) h5⟩

/-- C4 witness at the concrete duration string `1:05`. -/
theorem c4_duration_parse_format_roundtrip_witness :
    (['1'] : List Char) ≠ [] ∧ (['0', '5'] : List Char) ≠ [] ∧
    (∀ c ∈ (['1'] : List Char), c.isDigit = true) ∧
    (∀ c ∈ (['0', '5'] : List Char), c.isDigit = true) ∧
    digitsVal ['0', '5'] < 60 ∧
    (parseDurationMinutes (String.mk (['1'] ++ ':' :: ['0', '5'])) =
        some ((digitsVal ['1'] : Int) * 60 + (digitsVal ['0', '5'] : Int)) ∧
      formatDuration ((digitsVal ['1'] : Int) * 60 + (digitsVal ['0', '5'] : Int)) =
        toString (digitsVal ['1']) ++ "h " ++ toString (digitsVal ['0', '5']) ++ "m") :=
  ⟨by decide, by decide, by decide, by decide, by decide,
    c4_duration_parse_format_roundtrip ['1'] ['0', '5'] (by decide) (by decide)
      (by decide) (by decide) (by decide)⟩

/-- C5: aggregation over the empty sequence of records returns the documented
zero-state — sessionCount 0, total duration displayed as `0h 0m` (which is
also what `formatDuration 0` renders), avgCalories 0, maxHeartRate 0 —
without any division taking place. -/
theorem c5_empty_aggregation_zero_state :
    computeStats [] =
      { totalSessions := 0, totalDuration := "0h 0m", avgCalories := 0,
        maxHeartRate := 0 } ∧
    formatDuration 0 = "0h 0m" := by decide

/-- C6: for every non-empty sequence of records of one category, the
aggregated maxHeartRate is the maximum over the records of their maxHeartRate
with an absent value treated as 0: it is one of those fallback values and
bounds them all; when every record's maxHeartRate is absent it is 0. -/
theorem c6_maxHeartRate_is_max_with_zero_fallback (l : List Record) (h : l ≠ []) :
    ((computeStats l).maxHeartRate ∈ l.map (fun r => r.maxHeartRate.getD 0)) ∧
    (∀ r ∈ l, r.maxHeartRate.getD 0 ≤ (computeStats l).maxHeartRate) ∧
    ((∀ r ∈ l, r.maxHeartRate = none) → (computeStats l).maxHeartRate = 0) := by
  cases l with
  | nil => exact absurd rfl h
  | cons a t =>
    have hlen : 0 < (a :: t).length := by simp
    have hcs : (computeStats (a :: t)).maxHeartRate =
        jsMax (a.maxHeartRate.getD 0 :: t.map (fun r => r.maxHeartRate.getD 0)) := by
      unfold computeStats
      rw [if_pos hlen]
      rfl
    obtain ⟨hmem, hle⟩ := jsMax_spec (a.maxHeartRate.getD 0)
      (t.map (fun r => r.maxHeartRate.getD 0))
    refine ⟨?_, ?_, ?_⟩
    · rw [hcs]; exact hmem
    · intro r hr
      rw [hcs]
      rcases List.mem_cons.mp hr with h' | h'
      · rw [h']; exact hle _ (List.mem_cons_self _ _)
      · exact hle _ (List.mem_cons_of_mem _ (List.mem_map_of_mem _ h'))
    · intro hall
      rw [hcs]
      rcases List.mem_cons.mp hmem with h' | h'
      · rw [h', hall a (List.mem_cons_self a t)]; rfl
      · obtain ⟨r, hrmem, hrq⟩ := List.mem_map.mp h'
        rw [← hrq, hall r (List.mem_cons_of_mem a hrmem)]
        rfl

/-- C6 witness at the concrete records `c6Recs`. -/
theorem c6_maxHeartRate_is_max_with_zero_fallback_witness :
    c6Recs ≠ [] ∧
      (((computeStats c6Recs).maxHeartRate ∈
          c6Recs.map (fun r => r.maxHeartRate.getD 0)) ∧
        (∀ r ∈ c6Recs, r.maxHeartRate.getD 0 ≤ (computeStats c6Recs).maxHeartRate) ∧
        ((∀ r ∈ c6Recs, r.maxHeartRate = none) →
          (computeStats c6Recs).maxHeartRate = 0)) :=
  ⟨by decide, c6_maxHeartRate_is_max_with_zero_fallback c6Recs (by decide)⟩

/-- C7: every record of the processed output carries one of the two
configured categories; a row with any other category label is dropped by the
filter stage and can appear in no category's filtered output, series or
aggregate (all of which are built from the processed output). -/
theorem c7_unrecognized_category_dropped (rows : List RawRow) (r : Record)
    (h : r ∈ processedData rows) :
    r.workoutType = "Squash" ∨ r.workoutType = "Hiking" :=
  processedData_category h

/-- C7 witness at the concrete batch `c7Rows` (a squash row and a `Running`
row). -/
theorem c7_unrecognized_category_dropped_witness :
    processRow c7Row ∈ processedData c7Rows ∧
      ((processRow c7Row).workoutType = "Squash" ∨
        (processRow c7Row).workoutType = "Hiking") :=
  ⟨by decide, c7_unrecognized_category_dropped c7Rows (processRow c7Row) (by decide)⟩

/-- C8: aggregation is order-independent — permuting the records of a
category leaves every field of the computed CategoryStats unchanged. -/
theorem c8_aggregation_perm_invariant (l l2 : List Record) (h : l.Perm l2) :
    computeStats l = computeStats l2 := by
  have h1 : l.length = l2.length := h.length_eq
  have h2 := duration_foldl_perm h
  have h3 := calories_foldl_perm h
  have h4 : jsMax (l.map (fun r => r.maxHeartRate.getD 0)) =
      jsMax (l2.map (fun r => r.maxHeartRate.getD 0)) :=
    jsMax_perm (h.map _)
  unfold computeStats
  rw [h1, h2, h3, h4]

/-- C8 witness at the concrete two-record swap. -/
theorem c8_aggregation_perm_invariant_witness :
    ([c8RecA, c8RecB].Perm [c8RecB, c8RecA]) ∧
      computeStats [c8RecA, c8RecB] = computeStats [c8RecB, c8RecA] :=
  ⟨List.Perm.swap c8RecB c8RecA [],
    c8_aggregation_perm_invariant _ _ (List.Perm.swap c8RecB c8RecA [])⟩

/-- C9: a duration cell that splits on `:` into more than two parts is
neither rejected nor skipped — durationMinutes is computed from the first two
parts only, the rest being silently ignored, and a category-matching row with
such a duration still reaches the output. -/
theorem c9_extra_duration_parts_ignored (hs ms tl : List Char)
    (h1 : hs ≠ []) (h2 : ms ≠ [])
    (h3 : ∀ c ∈ hs, c.isDigit = true) (h4 : ∀ c ∈ ms, c.isDigit = true) :
    parseDurationMinutes (String.mk (hs ++ ':' :: (ms ++ ':' :: tl))) =
      some ((digitsVal hs : Int) * 60 + (digitsVal ms : Int)) ∧
    ∀ row : RawRow, row.duration = String.mk (hs ++ ':' :: (ms ++ ':' :: tl)) →
      categoryOk row = true →
      processRow row ∈ processedData [row] ∧
      (processRow row).durationMinutes =
        some ((digitsVal hs : Int) * 60 + (digitsVal ms : Int)) := by
  have hp := parseDurationMinutes_extra_parts hs ms tl h1 h2 h3 h4
  refine ⟨hp, ?_⟩
  intro row hdur hok
  have hsingle : processedData [row] = [processRow row] := by
    unfold processedData
    rw [List.filter_cons, if_pos hok]
    rfl
  constructor
  · rw [hsingle]
    exact List.mem_singleton.mpr rfl
  · show parseDurationMinutes row.duration =
      some ((digitsVal hs : Int) * 60 + (digitsVal ms : Int))
    rw [hdur]
    exact hp

/-- C9 witness at the concrete duration string `1:05:30`. -/
theorem c9_extra_duration_parts_ignored_witness :
    (['1'] : List Char) ≠ [] ∧ (['0', '5'] : List Char) ≠ [] ∧
    (∀ c ∈ (['1'] : List Char), c.isDigit = true) ∧
    (∀ c ∈ (['0', '5'] : List Char), c.isDigit = true) ∧
    String.mk (['1'] ++ ':' :: (['0', '5'] ++ ':' :: ['3', '0'])) = "1:05:30" ∧
    parseDurationMinutes (String.mk (['1'] ++ ':' :: (['0', '5'] ++ ':' :: ['3', '0']))) =
      some ((digitsVal ['1'] : Int) * 60 + (digitsVal ['0', '5'] : Int)) :=
  ⟨by decide, by decide, by decide, by decide, by decide,
    (c9_extra_duration_parts_ignored ['1'] ['0', '5'] ['3', '0']
      (by decide) (by decide) (by decide) (by decide)).1⟩

/-- C10: the two category sub-sequences partition the processed output —
every output record is Squash or Hiking, and the two published sessionCounts
add up to the length of the processed sequence. -/
theorem c10_categories_partition_output (rows : List RawRow) :
    (∀ r ∈ processedData rows, r.workoutType = "Squash" ∨ r.workoutType = "Hiking") ∧
    (squashStats rows).totalSessions + (hikingStats rows).totalSessions =
      (processedData rows).length := by
  refine ⟨fun r hr => processedData_category hr, ?_⟩
  unfold squashStats hikingStats squashData hikingData
  rw [computeStats_totalSessions, computeStats_totalSessions]
  exact filter_partition (processedData rows) (fun r hr => processedData_category hr)

/-- C10 witness at the concrete batch `c10Rows`. -/
theorem c10_categories_partition_output_witness :
    (∀ r ∈ processedData c10Rows,
        r.workoutType = "Squash" ∨ r.workoutType = "Hiking") ∧
      (squashStats c10Rows).totalSessions + (hikingStats c10Rows).totalSessions =
        (processedData c10Rows).length :=
  c10_categories_partition_output c10Rows

end SquashAnalysis
